import Mathlib

/-!
# project.cc : TCP over 802.11n/ac, one access point and several stations

A shallow embedding of the experiment script `src/project.cc`.

* Simulated time is a rational number of milliseconds (`Time`), so that
  `Seconds 1.1 = 1100` and `MilliSeconds 100 = 100`.
* A `double` is a value of type `Double`: a finite rational, a negative zero, an
  infinity or a NaN.  Every operation rounds its exact result to the nearest
  double, ties to even, as IEEE 754 binary64 does; writing a `double` to a
  stream keeps six significant digits.  The mobility section is generic over a
  field with `cos` and `sin` supplied by the caller.
* `uint64_t` values are naturals reduced modulo `2 ^ 64` where the source
  computes in that type.
* The simulation framework is external.  What the script needs from it is a
  parameter: the byte counter of the packet sink (`totalRx`), the TypeId
  registry (`LookupByNameFailSafe`), the address generator (`alloc`).
-/

namespace Project

/-! ## Time -/

/-- Simulated time, in milliseconds. -/
abbrev Time := ℚ

/-- The framework call `Seconds (s)`. -/
def Seconds (s : ℚ) : Time := 1000 * s

/-- The framework call `MilliSeconds (m)`. -/
def MilliSeconds (m : ℚ) : Time := m

/-! ## Double precision -/

/-- The integer nearest to `q`, a tie going to the even neighbour. -/
def roundHalfEven (q : ℚ) : ℤ :=
  if q - ⌊q⌋ < 1 / 2 then ⌊q⌋
  else if 1 / 2 < q - ⌊q⌋ then ⌊q⌋ + 1
  else if ⌊q⌋ % 2 = 0 then ⌊q⌋ else ⌊q⌋ + 1

/-- The values of the type `double`: the finite ones by their exact value (the
zero among them is the positive zero), the negative zero, the two infinities
and NaN. -/
inductive Double where
  | finite (q : ℚ)
  | negZero
  | inf (negative : Bool)
  | nan
  deriving DecidableEq, Repr

/-- The zero of the given sign. -/
def Double.zero (negative : Bool) : Double :=
  if negative then Double.negZero else Double.finite 0

/-- The sign bit of a `double`. -/
def Double.signBit : Double → Bool
  | Double.finite q => decide (q < 0)
  | Double.negZero => true
  | Double.inf n => n
  | Double.nan => false

/-- The `double` an exact result `x` is rounded to: the nearest multiple of the
unit in the last place, `2 ^ (e - 52)` with `2 ^ e ≤ |x| < 2 ^ (e + 1)` and `e` at
least `-1022`, a tie going to the even multiple; an infinity from `2 ^ 1024` on,
a zero of the sign of `x` when the multiple is zero. -/
def Double.nearest (x : ℚ) : Double :=
  if x = 0 then Double.finite 0
  else if (2 : ℚ) ^ 1024
      ≤ (roundHalfEven (|x| / 2 ^ (max (Int.log 2 |x|) (-1022) - 52)) : ℚ)
          * 2 ^ (max (Int.log 2 |x|) (-1022) - 52) then
    Double.inf (decide (x < 0))
  else if (roundHalfEven (|x| / 2 ^ (max (Int.log 2 |x|) (-1022) - 52)) : ℚ) = 0 then
    Double.zero (decide (x < 0))
  else if x < 0 then
    Double.finite (-((roundHalfEven (|x| / 2 ^ (max (Int.log 2 |x|) (-1022) - 52)) : ℚ)
          * 2 ^ (max (Int.log 2 |x|) (-1022) - 52)))
  else
    Double.finite ((roundHalfEven (|x| / 2 ^ (max (Int.log 2 |x|) (-1022) - 52)) : ℚ)
          * 2 ^ (max (Int.log 2 |x|) (-1022) - 52))

/-- The conversion of a `uint64_t` to `double`. -/
def Double.ofUInt64 (n : Nat) : Double := Double.nearest n

/-- The product of two `double` values. -/
def Double.mul : Double → Double → Double
  | Double.nan, _ => Double.nan
  | _, Double.nan => Double.nan
  | Double.inf a, Double.inf b => Double.inf (xor a b)
  | Double.inf a, Double.finite q =>
    if q = 0 then Double.nan else Double.inf (xor a (decide (q < 0)))
  | Double.inf _, Double.negZero => Double.nan
  | Double.finite q, Double.inf b =>
    if q = 0 then Double.nan else Double.inf (xor (decide (q < 0)) b)
  | Double.negZero, Double.inf _ => Double.nan
  | Double.negZero, Double.negZero => Double.finite 0
  | Double.negZero, Double.finite q => Double.zero (!decide (q < 0))
  | Double.finite q, Double.negZero => Double.zero (!decide (q < 0))
  | Double.finite p, Double.finite q =>
    if p * q = 0 then Double.zero (xor (decide (p < 0)) (decide (q < 0)))
    else Double.nearest (p * q)

/-- The quotient of two `double` values. -/
def Double.div : Double → Double → Double
  | Double.nan, _ => Double.nan
  | _, Double.nan => Double.nan
  | Double.inf _, Double.inf _ => Double.nan
  | Double.inf a, y => Double.inf (xor a y.signBit)
  | x, Double.inf b => Double.zero (xor x.signBit b)
  | Double.negZero, Double.negZero => Double.nan
  | Double.negZero, Double.finite q =>
    if q = 0 then Double.nan else Double.zero (!decide (q < 0))
  | Double.finite p, Double.negZero =>
    if p = 0 then Double.nan else Double.inf (!decide (p < 0))
  | Double.finite p, Double.finite q =>
    if q = 0 then (if p = 0 then Double.nan else Double.inf (decide (p < 0)))
    else if p = 0 then Double.zero (decide (q < 0))
    else Double.nearest (p / q)

/-- The number with six significant decimal digits nearest to `q`, a tie going
to the even last digit. -/
def roundSignificant6 (q : ℚ) : ℚ :=
  if q = 0 then 0
  else if q < 0 then
    -((roundHalfEven (|q| / 10 ^ (Int.log 10 |q| - 5)) : ℚ) * 10 ^ (Int.log 10 |q| - 5))
  else (roundHalfEven (|q| / 10 ^ (Int.log 10 |q| - 5)) : ℚ) * 10 ^ (Int.log 10 |q| - 5)

/-- What `std::cout << d` writes for a `double` when no precision is set: the
value to six significant digits; an infinity, a NaN and the negative zero are
written as such. -/
def printDouble : Double → Double
  | Double.finite q => Double.finite (roundSignificant6 q)
  | d => d

/-- The accessor `Time::GetSeconds` of the framework, taken as the `double`
nearest to the time in seconds. -/
def GetSeconds (t : Time) : Double := Double.nearest (t / 1000)

/-! ## Throughput statistics -/

/-- The number of values of `uint64_t`. -/
def UINT64 : Nat := 2 ^ 64

/-- Subtraction of two `uint64_t` values. -/
def sub64 (a b : Nat) : Nat := (a + (UINT64 - b % UINT64)) % UINT64

/-- Multiplication of two `uint64_t` values. -/
def mul64 (a b : Nat) : Nat := (a * b) % UINT64

/-- The callbacks the script hands to `Simulator::Schedule`. -/
inductive Callback where
  | CalculateThroughput
  deriving DecidableEq, Repr

/-- The globals of the script that `CalculateThroughput` touches, and the
lines it writes to standard output: the time in seconds and the Mbit/s value,
each as written. -/
structure Globals where
  lastTotalRx : Nat
  cout : List (Double × Double)
  deriving DecidableEq

/-- The globals at program start: `uint64_t lastTotalRx = 0`. -/
def Globals.initial : Globals := { lastTotalRx := 0, cout := [] }

/-- The value `cur` of `CalculateThroughput`:
`(sink->GetTotalRx () - lastTotalRx) * (double) 8 / 1e5`.  The difference is
taken in `uint64_t`, the product and the quotient in `double`. -/
def cur (sinkTotalRx lastTotalRx : Nat) : Double :=
  Double.div
    (Double.mul (Double.ofUInt64 (sub64 sinkTotalRx lastTotalRx)) (Double.finite 8))
    (Double.finite 100000)

/-- The function `CalculateThroughput ()`, run at simulated time `now` while the
sink reports `sinkTotalRx` received bytes.  Returns the new globals and the
scheduling requests it makes, each a delay relative to `now` and a callback. -/
def CalculateThroughput (sinkTotalRx : Nat) (now : Time) (g : Globals) :
    Globals × List (Time × Callback) :=
  ({ lastTotalRx := sinkTotalRx % UINT64,
     cout := g.cout ++
       [(printDouble (GetSeconds now), printDouble (cur sinkTotalRx g.lastTotalRx))] },
   [(MilliSeconds 100, Callback.CalculateThroughput)])

/-- The time at which `main` starts the transmitters: `serverApps.Start (Seconds (1.0))`. -/
def serverAppsStart : Time := Seconds 1

/-- The time at which `main` starts the sinks: `sinkApps.Start (Seconds (0.0))`. -/
def sinkAppsStart : Time := Seconds 0

/-- The time of the first sample: `Simulator::Schedule (Seconds (1.1), ...)`. -/
def firstSample : Time := Seconds (11 / 10)

/-- The value `averageThroughput` of `main`:
`(sink->GetTotalRx () * 8) / (1e6 * simulationTime)`.  The product by 8 is taken
in `uint64_t` and converted, the product `1e6 * simulationTime` and the quotient
are taken in `double`. -/
def averageThroughput (sinkTotalRx : Nat) (simulationTime : Double) : Double :=
  Double.div (Double.ofUInt64 (mul64 sinkTotalRx 8))
    (Double.mul (Double.finite 1000000) simulationTime)

/-- The value `main` writes after "Average throughput:". -/
def printedAverage (sinkTotalRx : Nat) (simulationTime : Double) : Double :=
  printDouble (averageThroughput sinkTotalRx simulationTime)

/-! ## The discrete-event kernel

The script drives the framework through `Simulator::Schedule`,
`Simulator::Stop` and `Simulator::Run`.  The framework is not part of the
source; the kernel below follows sections 3 and 4 of the specification. -/

/-- Modelled from the spec: the Event of the data model (the simulation
framework that owns the event queue is missing from the source).  The callback
is a name of type `α`, run by the interpreter given to the engine. -/
structure Event (α : Type) where
  scheduled_time : Time
  sequence_number : Nat
  callback : α
  cancelled : Bool

/-- Modelled from the spec: the states of the engine of section 4.2, with the
terminal state reached by `destroy` (the engine is missing from the source). -/
inductive EngineState where
  | Idle
  | Running
  | Stopped
  | Destroyed
  deriving DecidableEq, Repr

/-- Modelled from the spec: the error kinds of section 7 (the engine is missing
from the source). -/
inductive EngineError where
  | InvalidScheduleError
  | EngineDestroyedError
  | CallbackError
  deriving DecidableEq, Repr

/-- Modelled from the spec: the engine with its clock, its event queue kept
ordered by time and then sequence number, the next sequence number, the stop
time when one is set, and the state (the engine is missing from the source). -/
structure Engine (α : Type) where
  clock : Time
  queue : List (Event α)
  next_sequence_number : Nat
  stop_time : Option Time
  state : EngineState

/-- Modelled from the spec: what a callback may ask of the engine while it runs,
scheduling at a relative or an absolute time, or cancelling a handle (the
engine is missing from the source). -/
inductive Request (α : Type) where
  | schedule (delay : Time) (callback : α)
  | insert (time : Time) (callback : α)
  | cancel (handle : Nat)

/-- Modelled from the spec: the order of the event queue, lexicographic on
time and sequence number (the event queue is missing from the source). -/
def Event.before {α : Type} (a b : Event α) : Bool :=
  decide (a.scheduled_time < b.scheduled_time) ||
    (decide (a.scheduled_time = b.scheduled_time) &&
      decide (a.sequence_number < b.sequence_number))

/-- Modelled from the spec: insertion into the ordered event queue (the event
queue is missing from the source). -/
def enqueue {α : Type} (e : Event α) : List (Event α) → List (Event α)
  | [] => [e]
  | x :: xs => if Event.before e x then e :: x :: xs else x :: enqueue e xs

/-- Modelled from the spec: a fresh engine, idle at time zero with nothing
queued (the engine is missing from the source). -/
def Engine.initial {α : Type} : Engine α :=
  { clock := 0, queue := [], next_sequence_number := 0, stop_time := none,
    state := EngineState.Idle }

/-- Modelled from the spec: `insert(time, callback) -> Handle` of section 4.1,
failing for a time before the clock and after `destroy`; the handle is the
sequence number of the event (the event queue is missing from the source). -/
def Engine.insert {α : Type} (eng : Engine α) (time : Time) (cb : α) :
    Except EngineError (Engine α × Nat) :=
  if eng.state = EngineState.Destroyed then
    Except.error EngineError.EngineDestroyedError
  else if time < eng.clock then
    Except.error EngineError.InvalidScheduleError
  else
    Except.ok
      ({ eng with
          queue := enqueue { scheduled_time := time,
                             sequence_number := eng.next_sequence_number,
                             callback := cb, cancelled := false } eng.queue,
          next_sequence_number := eng.next_sequence_number + 1 },
        eng.next_sequence_number)

/-- Modelled from the spec: `schedule` at a time relative to the clock, as the
call `Simulator::Schedule (delay, callback)` of the script (the engine is
missing from the source). -/
def Engine.schedule {α : Type} (eng : Engine α) (delay : Time) (cb : α) :
    Except EngineError (Engine α × Nat) :=
  eng.insert (eng.clock + delay) cb

/-- Modelled from the spec: `cancel(handle)` of section 4.1, which marks a
pending event and is a no-op otherwise (the event queue is missing from the
source). -/
def Engine.cancel {α : Type} (eng : Engine α) (handle : Nat) : Engine α :=
  { eng with
    queue := eng.queue.map fun e =>
      if e.sequence_number = handle then { e with cancelled := true } else e }

/-- Modelled from the spec: `pop_next()` of section 4.1, the earliest event
that is not cancelled, with the rest of the queue (the event queue is missing
from the source). -/
def pop_next {α : Type} : List (Event α) → Option (Event α × List (Event α))
  | [] => none
  | e :: es => if e.cancelled then pop_next es else some (e, es)

/-- Modelled from the spec: `schedule_stop(time)` of section 4.2 (the engine is
missing from the source). -/
def Engine.schedule_stop {α : Type} (eng : Engine α) (time : Time) :
    Except EngineError (Engine α) :=
  if eng.state = EngineState.Destroyed then
    Except.error EngineError.EngineDestroyedError
  else if time < eng.clock then
    Except.error EngineError.InvalidScheduleError
  else
    Except.ok { eng with stop_time := some time }

/-- Modelled from the spec: `now()` of section 4.2 (the engine is missing from
the source). -/
def Engine.now {α : Type} (eng : Engine α) : Time := eng.clock

/-- Modelled from the spec: `destroy()` of section 4.2 (the engine is missing
from the source). -/
def Engine.destroy {α : Type} (eng : Engine α) : Engine α :=
  { eng with queue := [], state := EngineState.Destroyed }

/-- Modelled from the spec: the requests of a callback, carried out in order;
the first one that fails aborts (the engine is missing from the source). -/
def Engine.perform {α : Type} (eng : Engine α) : List (Request α) → Except EngineError (Engine α)
  | [] => Except.ok eng
  | Request.schedule delay cb :: rs =>
    match eng.schedule delay cb with
    | Except.error e => Except.error e
    | Except.ok r => Engine.perform r.1 rs
  | Request.insert time cb :: rs =>
    match eng.insert time cb with
    | Except.error e => Except.error e
    | Except.ok r => Engine.perform r.1 rs
  | Request.cancel handle :: rs => Engine.perform (eng.cancel handle) rs

/-- Modelled from the spec: the test of the run loop, true when a stop time is
set and the next event lies after it (the engine is missing from the source). -/
def pastStop (stop : Option Time) (t : Time) : Bool :=
  match stop with
  | none => false
  | some s => decide (s < t)

/-- Modelled from the spec: the loop of `run()` in section 4.2.  While the queue
holds an event that is not cancelled and whose time is at most the stop time, the
event is popped, the clock advances to its time and its callback is invoked
through `exec`, which returns the new state of the callbacks and their
requests.  Each turn uses one unit of `fuel`; `none` means the fuel ran out.
The last component lists the events executed, in order (the engine is missing
from the source). -/
def Engine.loop {σ α : Type} (exec : α → Time → σ → σ × List (Request α)) :
    Nat → Engine α → σ → List (Time × α) →
      Option (Except EngineError (Engine α × σ × List (Time × α)))
  | 0, _, _, _ => none
  | fuel + 1, eng, s, fired =>
    match pop_next eng.queue with
    | none => some (Except.ok ({ eng with queue := [], state := EngineState.Stopped }, s, fired))
    | some (ev, rest) =>
      if pastStop eng.stop_time ev.scheduled_time then
        some (Except.ok ({ eng with state := EngineState.Stopped }, s, fired))
      else
        match Engine.perform { eng with clock := ev.scheduled_time, queue := rest }
            (exec ev.callback ev.scheduled_time s).2 with
        | Except.error e => some (Except.error e)
        | Except.ok eng1 =>
          Engine.loop exec fuel eng1 (exec ev.callback ev.scheduled_time s).1
            (fired ++ [(ev.scheduled_time, ev.callback)])

/-- Modelled from the spec: `run()` of section 4.2, which takes an idle engine
to Running and loops; it fails on a destroyed engine and does nothing on one
that already ran (the engine is missing from the source). -/
def Engine.run {σ α : Type} (exec : α → Time → σ → σ × List (Request α))
    (fuel : Nat) (eng : Engine α) (s : σ) :
    Option (Except EngineError (Engine α × σ × List (Time × α))) :=
  match eng.state with
  | EngineState.Idle => Engine.loop exec fuel { eng with state := EngineState.Running } s []
  | EngineState.Destroyed => some (Except.error EngineError.EngineDestroyedError)
  | _ => some (Except.ok (eng, s, []))

/-- Modelled from the spec: a sequence of `insert` calls, in order, stopping at
the first that fails (the event queue is missing from the source). -/
def Engine.insertAll {α : Type} (eng : Engine α) :
    List (Time × α) → Except EngineError (Engine α)
  | [] => Except.ok eng
  | (t, cb) :: rest =>
    match eng.insert t cb with
    | Except.error e => Except.error e
    | Except.ok r => Engine.insertAll r.1 rest

/-- Modelled from the spec: the scenarios of section 8, events inserted into a
fresh engine, a stop scheduled when one is given, then `run()` (the engine is
missing from the source). -/
def runAll {σ α : Type} (exec : α → Time → σ → σ × List (Request α))
    (events : List (Time × α)) (stop : Option Time) (fuel : Nat) (s : σ) :
    Option (Except EngineError (Engine α × σ × List (Time × α))) :=
  match Engine.insertAll Engine.initial events with
  | Except.error e => some (Except.error e)
  | Except.ok eng =>
    match stop with
    | none => eng.run exec fuel s
    | some t =>
      match eng.schedule_stop t with
      | Except.error e => some (Except.error e)
      | Except.ok eng1 => eng1.run exec fuel s

/-- The events a finished run executed, in order; `none` for a run that failed
or ran out of fuel. -/
def executed {σ α : Type} :
    Option (Except EngineError (Engine α × σ × List (Time × α))) → Option (List (Time × α))
  | some (Except.ok r) => some r.2.2
  | _ => none

/-- Modelled from the spec: a callback that does nothing, for the scenarios of
section 8 (the scenarios are tests of the engine, which is missing from the
source). -/
def idle {α : Type} : α → Time → Unit → Unit × List (Request α) :=
  fun _ _ s => (s, [])

/-- A TypeId of the framework, identified by its number. -/
structure TypeId where
  tid : Nat
  deriving DecidableEq, Repr

/-- The enumeration `TcpWestwood::ProtocolType`. -/
inductive ProtocolType where
  | WESTWOOD
  | WESTWOODPLUS
  deriving DecidableEq, Repr

/-- The two defaults the selection writes through `Config::SetDefault`:
`ns3::TcpL4Protocol::SocketType` and `ns3::TcpWestwood::ProtocolType`; `none`
stands for a default the script leaves untouched. -/
structure TcpDefaults where
  SocketType : Option TypeId
  ProtocolType : Option ProtocolType
  deriving DecidableEq, Repr

/-- The framework call `TypeId::LookupByName`, fatal when the name is unknown;
the registry is the function `LookupByNameFailSafe`. -/
def LookupByName (LookupByNameFailSafe : String → Option TypeId) (name : String) :
    Except String TypeId :=
  match LookupByNameFailSafe name with
  | some t => Except.ok t
  | none => Except.error ("TypeId " ++ name ++ " not found")

/-- The block "Select TCP variant" of `main`, from the command-line value
`tcpVariant`, the registry `LookupByNameFailSafe` and the TypeId returned by
`TcpWestwood::GetTypeId ()`.  An abort is an `Except.error` with the message. -/
def selectTcpVariant (LookupByNameFailSafe : String → Option TypeId) (TcpWestwood : TypeId)
    (tcpVariant : String) : Except String TcpDefaults :=
  let tcpVariant := "ns3::" ++ tcpVariant
  if tcpVariant = "ns3::TcpWestwoodPlus" then
    Except.ok { SocketType := some TcpWestwood, ProtocolType := some ProtocolType.WESTWOODPLUS }
  else
    match LookupByNameFailSafe tcpVariant with
    | none => Except.error ("TypeId " ++ tcpVariant ++ " not found")
    | some _ =>
      match LookupByName LookupByNameFailSafe tcpVariant with
      | Except.error e => Except.error e
      | Except.ok t => Except.ok { SocketType := some t, ProtocolType := none }

/-! ## Nodes, devices, addresses and applications -/

/-- An IPv4 address, as its 32-bit value. -/
abbrev Ipv4Address := Nat

/-- The address `Ipv4Address::GetAny ()`, 0.0.0.0. -/
def GetAny : Ipv4Address := 0

/-- A node of the simulation, identified by the number the framework gives it
at creation. -/
structure Node where
  id : Nat
  deriving DecidableEq, Repr

/-- The two MAC types the script installs. -/
inductive WifiMacType where
  | ApWifiMac
  | StaWifiMac
  deriving DecidableEq, Repr

/-- A Wi-Fi device: the node it is installed on and its MAC type. -/
structure NetDevice where
  node : Node
  mac : WifiMacType
  deriving DecidableEq, Repr

/-- The class `InetSocketAddress`. -/
structure InetSocketAddress where
  ipv4 : Ipv4Address
  port : Nat
  deriving DecidableEq, Repr

/-- The two application types the script installs. -/
inductive ApplicationType where
  | OnOffApplication
  | PacketSink
  deriving DecidableEq, Repr

/-- An installed application: its type, its socket factory, its address (the
remote address of an on-off source, the local address of a packet sink) and
the node it is installed on.  The attributes PacketSize, OnTime, OffTime and
DataRate play no part in where traffic flows and are left out. -/
structure Application where
  type : ApplicationType
  socketFactory : String
  address : InetSocketAddress
  node : Node
  deriving DecidableEq, Repr

/-- The conversion of an `int` argument to the `uint32_t` parameter of
`NodeContainer::Create`. -/
def toUint32 (z : Int) : Nat := (z % 2 ^ 32).toNat

/-- The call `NodeContainer::Create (n)`, when the framework has created
`firstId` nodes so far: `n` new nodes, numbered from `firstId`. -/
def Create (firstId n : Nat) : List Node :=
  (List.range n).map fun k => { id := firstId + k }

/-- The call `wifiHelper.Install (wifiPhy, wifiMac, nodes)`: one device a node,
of the MAC type last set on the helper. -/
def Install (mac : WifiMacType) (nodes : List Node) : List NetDevice :=
  nodes.map fun n => { node := n, mac := mac }

/-- The call `address.Assign (devices)`, when the helper has handed out `next`
addresses so far: each device in turn gets the next address of the generator
`alloc`. -/
def Assign (alloc : Nat → Ipv4Address) : Nat → List NetDevice → List (NetDevice × Ipv4Address)
  | _, [] => []
  | next, d :: ds => (d, alloc next) :: Assign alloc (next + 1) ds

/-- The call `Ipv4InterfaceContainer::GetAddress (i)`; `none` out of range. -/
def GetAddress (ifc : List (NetDevice × Ipv4Address)) (i : Nat) : Option Ipv4Address :=
  (ifc[i]?).map Prod.snd

/-- The generator that `address.SetBase ("10.0.0.0", "255.255.255.0")` starts:
10.0.0.1, 10.0.0.2, and so on. -/
def baseAlloc (k : Nat) : Ipv4Address := 0x0A000001 + k

/-- The loop "Install TCP/UDP Transmitter on the access point" of `main`. -/
def installServerApps (apNodes : List Node) (staInterface : List (NetDevice × Ipv4Address))
    (nStations : Int) : Option (List Application) :=
  (List.range nStations.toNat).mapM fun i =>
    match GetAddress staInterface i, apNodes[0]? with
    | some a, some n =>
      some { type := ApplicationType.OnOffApplication, socketFactory := "ns3::TcpSocketFactory",
             address := { ipv4 := a, port := 9 }, node := n }
    | _, _ => none

/-- The loop "Install TCP Receivers on the stations" of `main`. -/
def installSinkApps (staNodes : List Node) (nStations : Int) : Option (List Application) :=
  (List.range nStations.toNat).mapM fun i =>
    match staNodes[i]? with
    | some n =>
      some { type := ApplicationType.PacketSink, socketFactory := "ns3::TcpSocketFactory",
             address := { ipv4 := GetAny, port := 9 }, node := n }
    | none => none

/-- What `main` has built when it starts the applications. -/
structure Scenario where
  apNodes : List Node
  staNodes : List Node
  networkNodes : List Node
  apDevice : List NetDevice
  staDevices : List NetDevice
  apInterface : List (NetDevice × Ipv4Address)
  staInterface : List (NetDevice × Ipv4Address)
  serverApps : List Application
  sinkApps : List Application
  sink : Application
  deriving DecidableEq, Repr

/-- The part of `main` from "Create Nodes" to `sink = StaticCast<PacketSink> (sinkApps.Get (0))`,
for the value `nStations` of the command line and the address generator `alloc`.
A container read out of range gives `none`. -/
def mainScenario (alloc : Nat → Ipv4Address) (nStations : Int) : Option Scenario :=
  let apNodes := Create 0 1
  let staNodes := Create apNodes.length (toUint32 nStations)
  let networkNodes := apNodes ++ staNodes
  let apDevice := Install WifiMacType.ApWifiMac apNodes
  let staDevices := Install WifiMacType.StaWifiMac staNodes
  let apInterface := Assign alloc 0 apDevice
  let staInterface := Assign alloc apInterface.length staDevices
  match installServerApps apNodes staInterface nStations with
  | none => none
  | some serverApps =>
    match installSinkApps staNodes nStations with
    | none => none
    | some sinkApps =>
      match sinkApps[0]? with
      | none => none
      | some sink =>
        some { apNodes := apNodes, staNodes := staNodes, networkNodes := networkNodes,
               apDevice := apDevice, staDevices := staDevices,
               apInterface := apInterface, staInterface := staInterface,
               serverApps := serverApps, sinkApps := sinkApps, sink := sink }

/-- The on-off source the `i`-th turn of the transmitter loop installs when no
container is read out of range: on the first node created, towards the address
handed out after the one of the access point and `i` others. -/
def serverApp (alloc : Nat → Ipv4Address) (i : Nat) : Application :=
  { type := ApplicationType.OnOffApplication, socketFactory := "ns3::TcpSocketFactory",
    address := { ipv4 := alloc (1 + i), port := 9 }, node := { id := 0 } }

/-- The packet sink the `i`-th turn of the receiver loop installs when no
container is read out of range: on the node created after the access point and
`i` others. -/
def sinkApp (i : Nat) : Application :=
  { type := ApplicationType.PacketSink, socketFactory := "ns3::TcpSocketFactory",
    address := { ipv4 := GetAny, port := 9 }, node := { id := 1 + i } }

/-! ## Mobility -/

/-- The class `Vector` of the framework, over the number type `R`. -/
structure Vector3D (R : Type) where
  x : R
  y : R
  z : R

/-- The constant `c` of `main`: `3.14159 * 2`. -/
def c {R : Type} [Field R] : R := 314159 / 100000 * 2

/-- The value `angle` of the placement loop: `((double) i / (double) nStations) * c`. -/
def angle {R : Type} [Field R] (nStations : Int) (i : Nat) : R :=
  ((i : R) / (nStations : R)) * c

/-- The positions `main` adds to the `ListPositionAllocator`, in order: the
origin for the access point, then one position a turn of the placement loop.
The functions `cos` and `sin` are those of the number type `R`. -/
def positionAlloc {R : Type} [Field R] (cos sin : R → R) (nodeDistance : R) (nStations : Int) :
    List (Vector3D R) :=
  { x := 0, y := 0, z := 0 } ::
    (List.range nStations.toNat).map fun i =>
      { x := nodeDistance * cos (angle nStations i),
        y := nodeDistance * sin (angle nStations i),
        z := 0 }

end Project

namespace Project

/-! ## Arithmetic of the 64-bit counters -/

theorem sub64_of_le {a b : Nat} (hba : b ≤ a) (ha : a < 2 ^ 64) : sub64 a b = a - b := by
  unfold sub64 UINT64
  have hb : b < 2 ^ 64 := lt_of_le_of_lt hba ha
  rw [Nat.mod_eq_of_lt hb]
  have h1 : a + (2 ^ 64 - b) = (a - b) + 2 ^ 64 := by omega
  rw [h1, Nat.add_mod_right]
  exact Nat.mod_eq_of_lt (by omega)

/-- Rounding to the nearest integer moves a number by at most one half. -/
theorem roundHalfEven_close (q : ℚ) : |(roundHalfEven q : ℚ) - q| ≤ 1 / 2 := by
  have h1 : (⌊q⌋ : ℚ) ≤ q := Int.floor_le q
  have h2 : q < (⌊q⌋ : ℚ) + 1 := Int.lt_floor_add_one q
  unfold roundHalfEven
  split_ifs with ha hb hc
  · rw [abs_le]; constructor <;> linarith
  · push_cast; rw [abs_le]; constructor <;> linarith
  · have : q - ⌊q⌋ = 1 / 2 := le_antisymm (not_lt.mp hb) (not_lt.mp ha)
    rw [abs_le]; constructor <;> linarith
  · have : q - ⌊q⌋ = 1 / 2 := le_antisymm (not_lt.mp hb) (not_lt.mp ha)
    push_cast; rw [abs_le]; constructor <;> linarith

/-- A number less than one half away from an integer rounds to it. -/
theorem roundHalfEven_eq (q : ℚ) (m : ℤ) (h : |q - m| < 1 / 2) : roundHalfEven q = m := by
  rw [abs_lt] at h
  obtain ⟨h1, h2⟩ := h
  by_cases hm : (m : ℚ) ≤ q
  · have hf : ⌊q⌋ = m := Int.floor_eq_iff.mpr ⟨hm, by linarith⟩
    unfold roundHalfEven
    rw [hf, if_pos h2]
  · have hf : ⌊q⌋ = m - 1 := Int.floor_eq_iff.mpr ⟨by push_cast; linarith, by push_cast; linarith⟩
    have ha : ¬ (q - ((m - 1 : ℤ) : ℚ) < 1 / 2) := by push_cast; linarith
    have hb : 1 / 2 < q - ((m - 1 : ℤ) : ℚ) := by push_cast; linarith
    unfold roundHalfEven
    rw [hf, if_neg ha, if_pos hb]
    ring

/-- The exponent of the power of `b` just below `x`. -/
theorem log_eq_of_bounds (b : ℕ) (hb : 1 < b) (x : ℚ) (e : ℤ) (hx : 0 < x)
    (h1 : (b : ℚ) ^ e ≤ x) (h2 : x < (b : ℚ) ^ (e + 1)) : Int.log b x = e := by
  have ha : e ≤ Int.log b x := (Int.zpow_le_iff_le_log hb hx).mp h1
  have hc : Int.log b x < e + 1 := (Int.lt_zpow_iff_log_lt hb hx).mp h2
  omega

/-- In the normal range rounding to `double` gives a finite value within a
relative `2 ^ -53` of the exact one. -/
theorem Double.nearest_close (x : ℚ) (h1 : 1 / 2 ^ 1022 ≤ x) (h2 : x ≤ 2 ^ 1023) :
    ∃ y, Double.nearest x = Double.finite y ∧ |y - x| ≤ x / 2 ^ 53 := by
  have hx : 0 < x := lt_of_lt_of_le (by positivity) h1
  have habs : |x| = x := abs_of_pos hx
  have hlog : (-1022 : ℤ) ≤ Int.log 2 x := by
    apply (Int.zpow_le_iff_le_log (by norm_num) hx).mp
    rw [show (-1022 : ℤ) = -((1022 : ℕ) : ℤ) from rfl, zpow_neg, zpow_natCast, ← one_div,
      show ((2 : ℕ) : ℚ) = 2 from Nat.cast_ofNat]
    exact h1
  have hmax : max (Int.log 2 x) (-1022) = Int.log 2 x := max_eq_left hlog
  have hle : (2 : ℚ) ^ Int.log 2 x ≤ x := by
    simpa using Int.zpow_log_le_self (b := 2) (by norm_num) hx
  have hulp : (0 : ℚ) < 2 ^ (Int.log 2 x - 52) := by positivity
  have hulp2 : (2 : ℚ) ^ (Int.log 2 x - 52) = 2 ^ Int.log 2 x / 2 ^ 52 := by
    rw [zpow_sub₀ (by norm_num)]
    norm_num
  have hclose := roundHalfEven_close (x / 2 ^ (Int.log 2 x - 52))
  have hy : |(roundHalfEven (x / 2 ^ (Int.log 2 x - 52)) : ℚ) * 2 ^ (Int.log 2 x - 52) - x|
      ≤ x / 2 ^ 53 := by
    have e1 : (roundHalfEven (x / 2 ^ (Int.log 2 x - 52)) : ℚ) * 2 ^ (Int.log 2 x - 52) - x
        = ((roundHalfEven (x / 2 ^ (Int.log 2 x - 52)) : ℚ) - x / 2 ^ (Int.log 2 x - 52))
            * 2 ^ (Int.log 2 x - 52) := by
      field_simp
    rw [e1, abs_mul, abs_of_pos hulp]
    calc |(roundHalfEven (x / 2 ^ (Int.log 2 x - 52)) : ℚ) - x / 2 ^ (Int.log 2 x - 52)|
            * 2 ^ (Int.log 2 x - 52)
        ≤ 1 / 2 * 2 ^ (Int.log 2 x - 52) := mul_le_mul_of_nonneg_right hclose (le_of_lt hulp)
      _ = 2 ^ Int.log 2 x / 2 ^ 53 := by rw [hulp2]; ring
      _ ≤ x / 2 ^ 53 := div_le_div_of_nonneg_right hle (by positivity)
  rw [abs_le] at hy
  have hpos : 0 < x / 2 ^ 53 := by positivity
  have hxs : x / 2 ^ 53 ≤ x / 2 := by
    apply div_le_div_of_nonneg_left (le_of_lt hx) (by norm_num) (by norm_num)
  refine ⟨(roundHalfEven (x / 2 ^ (Int.log 2 x - 52)) : ℚ) * 2 ^ (Int.log 2 x - 52), ?_,
    abs_le.mpr hy⟩
  have hov : ¬ ((2 : ℚ) ^ 1024
      ≤ (roundHalfEven (x / 2 ^ (Int.log 2 x - 52)) : ℚ) * 2 ^ (Int.log 2 x - 52)) := by
    have hpow : (2 : ℚ) ^ (1023 + 1) = 2 * 2 ^ 1023 := pow_succ' 2 1023
    rw [not_le, show (1024 : ℕ) = 1023 + 1 from rfl, hpow]
    generalize (2 : ℚ) ^ 1023 = M at h2 ⊢
    linarith
  have hne : ¬ ((roundHalfEven (x / 2 ^ (Int.log 2 x - 52)) : ℚ) = 0) := by
    intro h0
    rw [h0, zero_mul] at hy
    linarith
  unfold Double.nearest
  rw [if_neg (ne_of_gt hx), habs, hmax, if_neg hov, if_neg hne, if_neg (not_lt.mpr (le_of_lt hx))]

/-- The `double` nearest to a positive `x`, from its exponent `e` and the integer `m`
its significand rounds to. -/
theorem Double.nearest_eq (x : ℚ) (e m : ℤ) (hx : 0 < x) (he : -1022 ≤ e)
    (h1 : (2 : ℚ) ^ e ≤ x) (h2 : x < (2 : ℚ) ^ (e + 1))
    (hm : |x / 2 ^ (e - 52) - m| < 1 / 2) (hm0 : m ≠ 0)
    (hov : (m : ℚ) * 2 ^ (e - 52) < 2 ^ 1024) :
    Double.nearest x = Double.finite ((m : ℚ) * 2 ^ (e - 52)) := by
  have hlog : Int.log 2 x = e := log_eq_of_bounds 2 (by norm_num) x e hx (by simpa using h1)
    (by simpa using h2)
  have hmax : max (Int.log 2 x) (-1022) = e := by rw [hlog]; exact max_eq_left he
  have hr : roundHalfEven (x / 2 ^ (e - 52)) = m := roundHalfEven_eq _ m hm
  have hm0q : ¬ ((m : ℚ) = 0) := by exact_mod_cast hm0
  unfold Double.nearest
  rw [if_neg (ne_of_gt hx), abs_of_pos hx, hmax, hr, if_neg (not_le.mpr hov), if_neg hm0q,
    if_neg (not_lt.mpr (le_of_lt hx))]

/-- Six significant digits keep a positive value within a relative `5 * 10 ^ -6`. -/
theorem roundSignificant6_close (q : ℚ) (hq : 0 < q) :
    |roundSignificant6 q - q| ≤ q / (2 * 10 ^ 5) := by
  have hle : (10 : ℚ) ^ Int.log 10 q ≤ q := by
    simpa using Int.zpow_log_le_self (b := 10) (by norm_num) hq
  have hunit : (0 : ℚ) < 10 ^ (Int.log 10 q - 5) := by positivity
  have hunit2 : (10 : ℚ) ^ (Int.log 10 q - 5) = 10 ^ Int.log 10 q / 10 ^ 5 := by
    rw [zpow_sub₀ (by norm_num)]
    norm_num
  have hclose := roundHalfEven_close (q / 10 ^ (Int.log 10 q - 5))
  unfold roundSignificant6
  rw [if_neg (ne_of_gt hq), if_neg (not_lt.mpr (le_of_lt hq)), abs_of_pos hq]
  have e1 : (roundHalfEven (q / 10 ^ (Int.log 10 q - 5)) : ℚ) * 10 ^ (Int.log 10 q - 5) - q
      = ((roundHalfEven (q / 10 ^ (Int.log 10 q - 5)) : ℚ) - q / 10 ^ (Int.log 10 q - 5))
          * 10 ^ (Int.log 10 q - 5) := by
    field_simp
  rw [e1, abs_mul, abs_of_pos hunit]
  calc |(roundHalfEven (q / 10 ^ (Int.log 10 q - 5)) : ℚ) - q / 10 ^ (Int.log 10 q - 5)|
          * 10 ^ (Int.log 10 q - 5)
      ≤ 1 / 2 * 10 ^ (Int.log 10 q - 5) := mul_le_mul_of_nonneg_right hclose (le_of_lt hunit)
    _ = 10 ^ Int.log 10 q / (2 * 10 ^ 5) := by rw [hunit2]; ring
    _ ≤ q / (2 * 10 ^ 5) := div_le_div_of_nonneg_right hle (by positivity)

/-- The six-digit rounding of a positive `q`, from its decimal exponent `e` and the
integer `m` its digits round to. -/
theorem roundSignificant6_eq (q : ℚ) (e m : ℤ) (hq : 0 < q)
    (h1 : (10 : ℚ) ^ e ≤ q) (h2 : q < (10 : ℚ) ^ (e + 1))
    (hm : |q / 10 ^ (e - 5) - m| < 1 / 2) :
    roundSignificant6 q = (m : ℚ) * 10 ^ (e - 5) := by
  have hlog : Int.log 10 q = e := log_eq_of_bounds 10 (by norm_num) q e hq (by simpa using h1)
    (by simpa using h2)
  unfold roundSignificant6
  rw [if_neg (ne_of_gt hq), if_neg (not_lt.mpr (le_of_lt hq)), abs_of_pos hq, hlog,
    roundHalfEven_eq _ m hm]

/-- The product of two finite values with a nonzero exact product. -/
theorem Double.mul_finite (p q : ℚ) (h : p * q ≠ 0) :
    Double.mul (Double.finite p) (Double.finite q) = Double.nearest (p * q) := by
  simp only [Double.mul, if_neg h]

/-- The quotient of two nonzero finite values. -/
theorem Double.div_finite (p q : ℚ) (hp : p ≠ 0) (hq : q ≠ 0) :
    Double.div (Double.finite p) (Double.finite q) = Double.nearest (p / q) := by
  simp only [Double.div, if_neg hp, if_neg hq]

/-- The bounds of `Double.nearest_close`, as two factors. -/
theorem Double.nearest_within (x : ℚ) (h1 : 1 / 2 ^ 1022 ≤ x) (h2 : x ≤ 2 ^ 1023) :
    ∃ y, Double.nearest x = Double.finite y
      ∧ (1 - 1 / 2 ^ 53) * x ≤ y ∧ y ≤ (1 + 1 / 2 ^ 53) * x := by
  obtain ⟨y, hy, hclose⟩ := Double.nearest_close x h1 h2
  rw [abs_le] at hclose
  refine ⟨y, hy, ?_, ?_⟩
  · linarith [hclose.1]
  · linarith [hclose.2]

/-- The bounds of `roundSignificant6_close`, as two factors. -/
theorem roundSignificant6_within (q : ℚ) (hq : 0 < q) :
    (1 - 1 / (2 * 10 ^ 5)) * q ≤ roundSignificant6 q
      ∧ roundSignificant6 q ≤ (1 + 1 / (2 * 10 ^ 5)) * q := by
  have h := roundSignificant6_close q hq
  rw [abs_le] at h
  constructor
  · linarith [h.1]
  · linarith [h.2]

/-- The printed value of `cur` for a byte difference `D`: finite and within a
relative `6 * 10 ^ -6` of `D * 8 / 10 ^ 5`. -/
theorem printed_cur_close (D : ℕ) (hD : D < 2 ^ 64) :
    ∃ p : ℚ,
      printDouble (Double.div (Double.mul (Double.ofUInt64 D) (Double.finite 8))
          (Double.finite 100000)) = Double.finite p
      ∧ |p - (D : ℚ) * 8 / 10 ^ 5| ≤ 6 / 10 ^ 6 * ((D : ℚ) * 8 / 10 ^ 5) := by
  rcases Nat.eq_zero_or_pos D with h0 | hpos
  · subst h0
    refine ⟨0, ?_, by norm_num⟩
    have e1 : Double.ofUInt64 0 = Double.finite 0 := by simp [Double.ofUInt64, Double.nearest]
    have e2 : Double.mul (Double.finite 0) (Double.finite 8) = Double.finite 0 := by
      norm_num [Double.mul, Double.zero]
    have e3 : Double.div (Double.finite 0) (Double.finite 100000) = Double.finite 0 := by
      norm_num [Double.div, Double.zero]
    rw [e1, e2, e3]
    simp [printDouble, roundSignificant6]
  · have hx1 : (1 : ℚ) ≤ D := by exact_mod_cast hpos
    have hx2 : (D : ℚ) ≤ 2 ^ 64 := by exact_mod_cast le_of_lt hD
    have hsmall : (1 : ℚ) / 2 ^ 1022 ≤ 1 / 2 ^ 20 :=
      one_div_le_one_div_of_le (by positivity) (pow_le_pow_right₀ (by norm_num) (by norm_num))
    have hbig : (2 : ℚ) ^ 70 ≤ 2 ^ 1023 := pow_le_pow_right₀ (by norm_num) (by norm_num)
    obtain ⟨y1, e1, l1, r1⟩ := Double.nearest_within (D : ℚ)
      (le_trans hsmall (by linarith)) (le_trans (by linarith) hbig)
    obtain ⟨y2, e2, l2, r2⟩ := Double.nearest_within (y1 * 8)
      (le_trans hsmall (by linarith)) (le_trans (by linarith) hbig)
    obtain ⟨y3, e3, l3, r3⟩ := Double.nearest_within (y2 / 100000)
      (le_trans hsmall (by linarith)) (le_trans (by linarith) hbig)
    have hy3 : 0 < y3 := by linarith
    obtain ⟨l4, r4⟩ := roundSignificant6_within y3 hy3
    refine ⟨roundSignificant6 y3, ?_, ?_⟩
    · rw [Double.ofUInt64, e1, Double.mul_finite _ _ (by nlinarith), e2,
        Double.div_finite _ _ (by linarith) (by norm_num), e3]
      rfl
    · rw [abs_le]
      constructor <;> linarith

/-- C1, as stated, fails on the first call with 781632 bytes received: the
`double` computed is `8800393959852139 / 2 ^ 47` and the value written is 62.5306,
neither of which is `(T - L) * 8 / 10 ^ 5 = 62.53056`. -/
theorem C1_printed_value_counterexample :
    (CalculateThroughput 781632 1100 Globals.initial).1.cout
        = [(Double.finite (11 / 10), Double.finite (312653 / 5000))]
      ∧ cur 781632 Globals.initial.lastTotalRx = Double.finite (8800393959852139 / 2 ^ 47)
      ∧ (312653 / 5000 : ℚ) ≠ ((781632 : ℚ) - 0) * 8 / 10 ^ 5
      ∧ (8800393959852139 / 2 ^ 47 : ℚ) ≠ ((781632 : ℚ) - 0) * 8 / 10 ^ 5 := by
  have h0 : sub64 781632 0 = 781632 := by
    unfold sub64 UINT64
    norm_num
  have ha : Double.nearest ((781632 : ℕ) : ℚ) = Double.finite 781632 := by
    rw [Double.nearest_eq _ 19 (781632 * 2 ^ 33) (by norm_num) (by norm_num) (by norm_num)
      (by norm_num) (by norm_num) (by norm_num) (by norm_num)]
    norm_num
  have hb : Double.nearest (781632 * 8) = Double.finite 6253056 := by
    rw [Double.nearest_eq _ 22 (6253056 * 2 ^ 30) (by norm_num) (by norm_num) (by norm_num)
      (by norm_num) (by norm_num) (by norm_num) (by norm_num)]
    norm_num
  have hc : Double.nearest (6253056 / 100000) = Double.finite (8800393959852139 / 2 ^ 47) := by
    rw [Double.nearest_eq _ 5 8800393959852139 (by norm_num) (by norm_num) (by norm_num)
      (by norm_num) (by rw [abs_lt]; constructor <;> norm_num) (by norm_num) (by norm_num)]
    norm_num
  have hcur : cur 781632 Globals.initial.lastTotalRx
      = Double.finite (8800393959852139 / 2 ^ 47) := by
    unfold cur Globals.initial
    rw [h0, Double.ofUInt64, ha, Double.mul_finite _ _ (by norm_num), hb,
      Double.div_finite _ _ (by norm_num) (by norm_num), hc]
  have hprint : printDouble (Double.finite (8800393959852139 / 2 ^ 47))
      = Double.finite (312653 / 5000) := by
    simp only [printDouble]
    rw [roundSignificant6_eq _ 1 625306 (by norm_num) (by norm_num) (by norm_num)
      (by rw [abs_lt]; constructor <;> norm_num)]
    norm_num
  have hsec : GetSeconds 1100 = Double.finite (4953959590107546 / 2 ^ 52) := by
    unfold GetSeconds
    rw [Double.nearest_eq _ 0 4953959590107546 (by norm_num) (by norm_num) (by norm_num)
      (by norm_num) (by rw [abs_lt]; constructor <;> norm_num) (by norm_num) (by norm_num)]
    norm_num
  have hsecp : printDouble (Double.finite (4953959590107546 / 2 ^ 52))
      = Double.finite (11 / 10) := by
    simp only [printDouble]
    rw [roundSignificant6_eq _ 0 110000 (by norm_num) (by norm_num) (by norm_num)
      (by rw [abs_lt]; constructor <;> norm_num)]
    norm_num
  refine ⟨?_, hcur, by norm_num, by norm_num⟩
  simp only [CalculateThroughput, hcur, hprint, hsec, hsecp]
  rfl

/-- C1, amended. Whenever `CalculateThroughput` runs while the sink has received
`T` bytes in total and `lastTotalRx` holds `L` (a `uint64_t` counter that only
grows: `L ≤ T < 2 ^ 64`), the Mbit/s value it writes is `(T - L) * 8 / 10 ^ 5`
computed in double precision and written with six significant digits: a finite
number within a relative `6 * 10 ^ -6` of `(T - L) * 8 / 10 ^ 5`, which is the
number of megabits received since the previous sample, `(T - L) * 8 / 10 ^ 6`,
divided by a window of `0.1` s.  The call stores `T` in `lastTotalRx` and asks to
run again `100` ms `= 0.1` s later; at program start `lastTotalRx` is `0`, and
the first sample is taken `100` ms after the transmitters start. -/
theorem C1_window_throughput (T : Nat) (now : Time) (g : Globals)
    (hL : g.lastTotalRx ≤ T) (hT : T < 2 ^ 64) :
    ∃ p : ℚ,
      (CalculateThroughput T now g).1.cout
          = g.cout ++ [(printDouble (GetSeconds now), Double.finite p)]
      ∧ |p - ((T : ℚ) - (g.lastTotalRx : ℚ)) * 8 / 10 ^ 5|
          ≤ 6 / 10 ^ 6 * (((T : ℚ) - (g.lastTotalRx : ℚ)) * 8 / 10 ^ 5)
      ∧ ((T : ℚ) - (g.lastTotalRx : ℚ)) * 8 / 10 ^ 5
          = (((T : ℚ) - (g.lastTotalRx : ℚ)) * 8 / 10 ^ 6) / (1 / 10)
      ∧ (CalculateThroughput T now g).1.lastTotalRx = T
      ∧ (CalculateThroughput T now g).2 = [(MilliSeconds 100, Callback.CalculateThroughput)]
      ∧ MilliSeconds 100 = Seconds (1 / 10)
      ∧ Globals.initial.lastTotalRx = 0
      ∧ firstSample - serverAppsStart = MilliSeconds 100 := by
  obtain ⟨p, hp, hclose⟩ := printed_cur_close (T - g.lastTotalRx) (by omega)
  rw [Nat.cast_sub hL] at hclose
  refine ⟨p, ?_, hclose, ?_, ?_, rfl, ?_, rfl, ?_⟩
  · simp only [CalculateThroughput, cur, sub64_of_le hL hT, hp]
  · norm_num
    ring
  · simp only [CalculateThroughput, UINT64]
    exact Nat.mod_eq_of_lt hT
  · simp only [MilliSeconds, Seconds]
    norm_num
  · simp only [firstSample, serverAppsStart, Seconds, MilliSeconds]
    norm_num

/-- C1, amended, at a concrete call at 1.2 s: 250000 bytes in total, 125000 at
the previous sample, a value within `6 * 10 ^ -5` of 10 Mbit/s is written. -/
theorem C1_window_throughput_witness :
    (125000 : Nat) ≤ 250000 ∧ (250000 : Nat) < 2 ^ 64 ∧
    ∃ p : ℚ,
      (CalculateThroughput 250000 1200 { lastTotalRx := 125000, cout := [] }).1.cout
          = [(printDouble (GetSeconds 1200), Double.finite p)]
      ∧ |p - 10| ≤ 6 / 10 ^ 5 := by
  obtain ⟨p, hp, hclose, _⟩ :=
    C1_window_throughput 250000 1200 { lastTotalRx := 125000, cout := [] }
      (by decide) (by norm_num)
  refine ⟨by decide, by norm_num, p, by simpa using hp, ?_⟩
  norm_num at hclose
  norm_num
  exact hclose

/-! ## The average throughput -/

/-- The product by 8 is taken in `uint64_t`: from `2 ^ 61` bytes on it wraps, and
for exactly `2 ^ 61` bytes the average written is 0. -/
theorem printedAverage_wraps : printedAverage (2 ^ 61) (Double.finite 1) = Double.finite 0 := by
  have hm : mul64 (2 ^ 61) 8 = 0 := by
    unfold mul64 UINT64
    norm_num
  have hb : Double.nearest (1000000 * 1) = Double.finite 1000000 := by
    rw [Double.nearest_eq _ 19 (1000000 * 2 ^ 33) (by norm_num) (by norm_num) (by norm_num)
      (by norm_num) (by norm_num) (by norm_num) (by norm_num)]
    norm_num
  have h0 : Double.ofUInt64 0 = Double.finite 0 := by simp [Double.ofUInt64, Double.nearest]
  have hdiv : Double.div (Double.finite 0) (Double.finite 1000000) = Double.finite 0 := by
    norm_num [Double.div, Double.zero]
  unfold printedAverage averageThroughput
  rw [hm, h0, Double.mul_finite _ _ (by norm_num), hb, hdiv]
  simp [printDouble, roundSignificant6]

/-- Section 8: events inserted at 5, 3, 3, 8 in the order A, B, C, D run in the
order B, C, A, D. -/
theorem scenario_tie_break :
    executed (runAll idle [(5, "A"), (3, "B"), (3, "C"), (8, "D")] none 5 ())
      = some [(3, "B"), (3, "C"), (5, "A"), (8, "D")] := by
  simp +decide [executed, runAll, Engine.insertAll, Engine.insert, Engine.initial, enqueue,
    Event.before, Engine.run, Engine.loop, pop_next, pastStop, Engine.perform, idle]

/-- Section 8: with a stop at 10 and events at 5 and 15, only the event at 5 runs. -/
theorem scenario_stop :
    executed (runAll idle [(5, "A"), (15, "B")] (some 10) 3 ()) = some [(5, "A")] := by
  simp +decide [executed, runAll, Engine.insertAll, Engine.insert, Engine.initial, enqueue,
    Event.before, Engine.run, Engine.loop, pop_next, pastStop, Engine.perform, idle,
    Engine.schedule_stop]

/-! ## The run loop on a periodic callback -/

/-- The prefixed name is the Westwood+ one exactly for the value `TcpWestwoodPlus`. -/
theorem ns3_append_eq_iff (v : String) :
    "ns3::" ++ v = "ns3::TcpWestwoodPlus" ↔ v = "TcpWestwoodPlus" := by
  constructor
  · intro h
    have h1 : ("ns3::TcpWestwoodPlus" : String) = "ns3::" ++ "TcpWestwoodPlus" := by decide
    rw [h1] at h
    have h2 := congrArg String.data h
    rw [String.data_append, String.data_append] at h2
    exact String.ext (List.append_cancel_left h2)
  · rintro rfl
    decide

/-- C4. For every value `v` of `tcpVariant`: if `v` is `TcpWestwoodPlus` the
selection does not abort, whatever the registry holds, and sets the socket type
to TcpWestwood with protocol type WESTWOODPLUS; otherwise it aborts if and only
if `ns3::v` is not a registered name, the message then being
`TypeId ns3::v not found`, and when `ns3::v` is registered the socket type is
the TypeId registered under that name. -/
theorem C4_tcp_variant_selection (registry : String → Option TypeId) (TcpWestwood : TypeId)
    (v : String) :
    (v = "TcpWestwoodPlus" →
      selectTcpVariant registry TcpWestwood v
        = Except.ok { SocketType := some TcpWestwood,
                      ProtocolType := some ProtocolType.WESTWOODPLUS })
    ∧ (v ≠ "TcpWestwoodPlus" →
      ((∃ msg, selectTcpVariant registry TcpWestwood v = Except.error msg)
          ↔ registry ("ns3::" ++ v) = none)
      ∧ (registry ("ns3::" ++ v) = none →
          selectTcpVariant registry TcpWestwood v
            = Except.error ("TypeId " ++ ("ns3::" ++ v) ++ " not found"))
      ∧ (∀ t, registry ("ns3::" ++ v) = some t →
          selectTcpVariant registry TcpWestwood v
            = Except.ok { SocketType := some t, ProtocolType := none })) := by
  constructor
  · intro hv
    simp [selectTcpVariant, (ns3_append_eq_iff v).mpr hv]
  · intro hv
    have hne : ¬ ("ns3::" ++ v = "ns3::TcpWestwoodPlus") := fun h => hv ((ns3_append_eq_iff v).mp h)
    have hnone : registry ("ns3::" ++ v) = none →
        selectTcpVariant registry TcpWestwood v
          = Except.error ("TypeId " ++ ("ns3::" ++ v) ++ " not found") := by
      intro h
      simp [selectTcpVariant, hne, h]
    have hsome : ∀ t, registry ("ns3::" ++ v) = some t →
        selectTcpVariant registry TcpWestwood v
          = Except.ok { SocketType := some t, ProtocolType := none } := by
      intro t h
      simp [selectTcpVariant, hne, h, LookupByName]
    refine ⟨⟨?_, fun h => ⟨_, hnone h⟩⟩, hnone, hsome⟩
    rintro ⟨msg, hmsg⟩
    cases hreg : registry ("ns3::" ++ v) with
    | none => rfl
    | some t =>
      rw [hsome t hreg] at hmsg
      cases hmsg

/-! ## Nodes, devices, addresses and applications -/

/-- When every turn of an optional loop body succeeds, the loop returns the list
of its results. -/
theorem mapM_option_eq_map {α β : Type} (f : α → Option β) (g : α → β) :
    ∀ l : List α, (∀ x ∈ l, f x = some (g x)) → l.mapM f = some (l.map g) := by
  intro l
  induction l with
  | nil => intro _; rfl
  | cons a l ih =>
    intro h
    rw [List.mapM_cons, h a (List.mem_cons_self a l),
      ih (fun x hx => h x (List.mem_cons_of_mem a hx))]
    rfl

/-- The `i`-th interface that `Assign` builds pairs the `i`-th device with the
`i`-th address handed out. -/
theorem Assign_getElem (alloc : Nat → Ipv4Address) :
    ∀ (ds : List NetDevice) (next i : Nat),
      (Assign alloc next ds)[i]? = (ds[i]?).map fun d => (d, alloc (next + i)) := by
  intro ds
  induction ds with
  | nil => intro next i; simp [Assign]
  | cons d ds ih =>
    intro next i
    cases i with
    | zero => simp [Assign]
    | succ i =>
      simp only [Assign, List.getElem?_cons_succ, ih]
      congr 1
      funext d
      congr 2
      omega

/-- The conversion to `uint32_t` keeps a positive `int`. -/
theorem toUint32_of_pos (nStations : Int) (h1 : 1 ≤ nStations) (h2 : nStations < 2 ^ 31) :
    toUint32 nStations = nStations.toNat := by
  unfold toUint32
  rw [Int.emod_eq_of_lt (by omega) (by omega)]

/-- The scenario `main` builds for a positive `nStations`, written out. -/
theorem mainScenario_built (alloc : Nat → Ipv4Address) (nStations : Int)
    (h1 : 1 ≤ nStations) (h2 : nStations < 2 ^ 31) :
    mainScenario alloc nStations
      = some
        { apNodes := [{ id := 0 }],
          staNodes := Create 1 nStations.toNat,
          networkNodes := { id := 0 } :: Create 1 nStations.toNat,
          apDevice := [{ node := { id := 0 }, mac := WifiMacType.ApWifiMac }],
          staDevices := Install WifiMacType.StaWifiMac (Create 1 nStations.toNat),
          apInterface := [({ node := { id := 0 }, mac := WifiMacType.ApWifiMac }, alloc 0)],
          staInterface :=
            Assign alloc 1 (Install WifiMacType.StaWifiMac (Create 1 nStations.toNat)),
          serverApps := (List.range nStations.toNat).map (serverApp alloc),
          sinkApps := (List.range nStations.toNat).map sinkApp,
          sink := sinkApp 0 } := by
  have hpos : 0 < nStations.toNat := by omega
  have hserver : installServerApps (Create 0 1)
      (Assign alloc 1 (Install WifiMacType.StaWifiMac (Create 1 nStations.toNat))) nStations
        = some ((List.range nStations.toNat).map (serverApp alloc)) := by
    apply mapM_option_eq_map
    intro i hi
    have hi1 : i < nStations.toNat := List.mem_range.mp hi
    simp [GetAddress, Assign_getElem, Install, Create, List.getElem?_range hi1, serverApp]
  have hsink : installSinkApps (Create 1 nStations.toNat) nStations
        = some ((List.range nStations.toNat).map sinkApp) := by
    apply mapM_option_eq_map
    intro i hi
    have hi1 : i < nStations.toNat := List.mem_range.mp hi
    simp [Create, List.getElem?_range hi1, sinkApp]
  have hfirst : ((List.range nStations.toNat).map sinkApp)[0]? = some (sinkApp 0) := by
    simp [List.getElem?_range hpos]
  have hap : Create 0 1 = [{ id := 0 }] := by decide
  simp only [mainScenario, toUint32_of_pos nStations h1 h2]
  rw [hap] at hserver ⊢
  simp only [Install, List.map, Assign, List.length_cons, List.length_nil, zero_add,
    List.singleton_append] at hserver ⊢
  rw [hserver, hsink]
  simp only [hfirst]

/-- C3, as stated, fails on the default run (`nStations = 3`, addresses from
10.0.0.1): the traffic sources are not all on station nodes (none is), their
destination is not the address of the access point, and the sink whose bytes are
reported is not on the access point. -/
theorem C3_station_sends_counterexample :
    ∃ sc, mainScenario baseAlloc 3 = some sc
      ∧ ¬ (∀ app ∈ sc.serverApps, app.node ∈ sc.staNodes)
      ∧ ¬ (∀ app ∈ sc.serverApps, GetAddress sc.apInterface 0 = some app.address.ipv4)
      ∧ ¬ (sc.sink.node ∈ sc.apNodes) :=
  ⟨_, mainScenario_built baseAlloc 3 (by norm_num) (by norm_num), by decide, by decide,
    by decide⟩

/-- The nodes `Create` makes are those numbered from `firstId`. -/
theorem mem_Create (firstId n : Nat) (x : Node) :
    x ∈ Create firstId n ↔ ∃ k, k < n ∧ x = { id := firstId + k } := by
  simp only [Create, List.mem_map, List.mem_range]
  constructor
  · rintro ⟨k, hk, rfl⟩
    exact ⟨k, hk, rfl⟩
  · rintro ⟨k, hk, rfl⟩
    exact ⟨k, hk, rfl⟩

/-- The `i`-th station interface: the device of station `i` with the address
handed out after the one of the access point and `i` others. -/
theorem staInterface_getElem (alloc : Nat → Ipv4Address) (n i : Nat) (hi : i < n) :
    (Assign alloc 1 (Install WifiMacType.StaWifiMac (Create 1 n)))[i]?
      = some ({ node := { id := 1 + i }, mac := WifiMacType.StaWifiMac }, alloc (1 + i)) := by
  simp [Assign_getElem, Install, Create, List.getElem?_range hi]

/-- C3, amended. For every `nStations ≥ 1` the scenario is built and the traffic
flows from the access point to the stations: there is a TCP traffic source,
every one is an on-off application installed on the access point node, which is
no station node, its destination is the address of the device of a station
node, and the packet sink whose received bytes are reported is the first sink,
installed on the first station node, which is not the access point. -/
theorem C3_access_point_sends (alloc : Nat → Ipv4Address) (nStations : Int)
    (h1 : 1 ≤ nStations) (h2 : nStations < 2 ^ 31) :
    ∃ sc, mainScenario alloc nStations = some sc
      ∧ sc.serverApps ≠ []
      ∧ (∀ d ∈ sc.apDevice, d.mac = WifiMacType.ApWifiMac ∧ d.node ∈ sc.apNodes)
      ∧ (∀ app ∈ sc.serverApps,
          app.type = ApplicationType.OnOffApplication
          ∧ app.socketFactory = "ns3::TcpSocketFactory"
          ∧ app.node ∈ sc.apNodes
          ∧ app.node ∉ sc.staNodes
          ∧ ∃ dev, (dev, app.address.ipv4) ∈ sc.staInterface
              ∧ dev.mac = WifiMacType.StaWifiMac ∧ dev.node ∈ sc.staNodes)
      ∧ sc.sinkApps[0]? = some sc.sink
      ∧ sc.sink.type = ApplicationType.PacketSink
      ∧ sc.staNodes[0]? = some sc.sink.node
      ∧ sc.sink.node ∉ sc.apNodes := by
  have hpos : 0 < nStations.toNat := by omega
  refine ⟨_, mainScenario_built alloc nStations h1 h2, ?_, ?_, ?_, ?_, rfl, ?_, ?_⟩
  · intro h
    have := congrArg List.length h
    simp at this
    omega
  · intro d hd
    simp only [List.mem_singleton] at hd
    subst hd
    simp
  · intro app happ
    simp only [List.mem_map, List.mem_range] at happ
    obtain ⟨i, hi, rfl⟩ := happ
    refine ⟨rfl, rfl, by simp [serverApp], ?_, ?_⟩
    · simp only [serverApp, mem_Create]
      rintro ⟨k, _, hk⟩
      simp only [Node.mk.injEq] at hk
      omega
    · refine ⟨{ node := { id := 1 + i }, mac := WifiMacType.StaWifiMac }, ?_, rfl, ?_⟩
      · exact List.getElem?_mem (staInterface_getElem alloc nStations.toNat i hi)
      · exact (mem_Create 1 nStations.toNat _).mpr ⟨i, hi, rfl⟩
  · simp [List.getElem?_range hpos]
  · simp [Create, List.getElem?_range hpos, sinkApp]
  · simp [sinkApp]

/-- C3, amended, on the default run of three stations with addresses from 10.0.0.1. -/
theorem C3_access_point_sends_witness :
    (1 : Int) ≤ 3 ∧ (3 : Int) < 2 ^ 31 ∧
    ∃ sc, mainScenario baseAlloc 3 = some sc
      ∧ sc.serverApps ≠ []
      ∧ (∀ d ∈ sc.apDevice, d.mac = WifiMacType.ApWifiMac ∧ d.node ∈ sc.apNodes)
      ∧ (∀ app ∈ sc.serverApps,
          app.type = ApplicationType.OnOffApplication
          ∧ app.socketFactory = "ns3::TcpSocketFactory"
          ∧ app.node ∈ sc.apNodes
          ∧ app.node ∉ sc.staNodes
          ∧ ∃ dev, (dev, app.address.ipv4) ∈ sc.staInterface
              ∧ dev.mac = WifiMacType.StaWifiMac ∧ dev.node ∈ sc.staNodes)
      ∧ sc.sinkApps[0]? = some sc.sink
      ∧ sc.sink.type = ApplicationType.PacketSink
      ∧ sc.staNodes[0]? = some sc.sink.node
      ∧ sc.sink.node ∉ sc.apNodes :=
  ⟨by norm_num, by norm_num, C3_access_point_sends baseAlloc 3 (by norm_num) (by norm_num)⟩

/-- C6. For every `nStations ≥ 1` (an `int`) the scenario is built with one access
point node and `nStations` station nodes; `nStations` TCP transmitters are
installed, all on the access point, the `i`-th one addressed on port 9 to the
address of the interface of station `i`; `nStations` TCP sinks are installed,
the `i`-th on station `i`, each listening on port 9; so the destination of
every transmitter is the address of a station that has a sink on the same port. -/
theorem C6_transmitters_and_sinks (alloc : Nat → Ipv4Address) (nStations : Int)
    (h1 : 1 ≤ nStations) (h2 : nStations < 2 ^ 31) :
    ∃ sc, mainScenario alloc nStations = some sc
      ∧ sc.apNodes.length = 1
      ∧ (sc.staNodes.length : Int) = nStations
      ∧ (∀ x ∈ sc.apNodes, x ∉ sc.staNodes)
      ∧ sc.staNodes.Nodup
      ∧ (sc.serverApps.length : Int) = nStations
      ∧ (∀ i : Nat, (i : Int) < nStations →
          ∃ app dev, sc.serverApps[i]? = some app
            ∧ app.type = ApplicationType.OnOffApplication
            ∧ app.socketFactory = "ns3::TcpSocketFactory"
            ∧ sc.apNodes = [app.node]
            ∧ sc.staInterface[i]? = some (dev, app.address.ipv4)
            ∧ sc.staNodes[i]? = some dev.node
            ∧ GetAddress sc.staInterface i = some app.address.ipv4
            ∧ app.address.port = 9)
      ∧ (sc.sinkApps.length : Int) = nStations
      ∧ (∀ i : Nat, (i : Int) < nStations →
          ∃ snk, sc.sinkApps[i]? = some snk
            ∧ snk.type = ApplicationType.PacketSink
            ∧ snk.socketFactory = "ns3::TcpSocketFactory"
            ∧ sc.staNodes[i]? = some snk.node
            ∧ snk.address = { ipv4 := GetAny, port := 9 })
      ∧ (∀ app ∈ sc.serverApps, ∃ snk ∈ sc.sinkApps, ∃ dev,
          (dev, app.address.ipv4) ∈ sc.staInterface
            ∧ dev.node = snk.node
            ∧ snk.address.port = app.address.port) := by
  have hn : (nStations.toNat : Int) = nStations := Int.toNat_of_nonneg (by omega)
  refine ⟨_, mainScenario_built alloc nStations h1 h2, rfl, ?_, ?_, ?_, ?_, ?_, ?_, ?_, ?_⟩
  · simp [Create, hn]
  · intro x hx
    simp only [List.mem_singleton] at hx
    subst hx
    simp only [mem_Create]
    rintro ⟨k, _, hk⟩
    simp only [Node.mk.injEq] at hk
    omega
  · simp only [Create]
    refine (List.nodup_range _).map ?_
    intro a b hab
    simp only [Node.mk.injEq] at hab
    omega
  · simp [hn]
  · intro i hi
    have hi1 : i < nStations.toNat := by omega
    refine ⟨serverApp alloc i, { node := { id := 1 + i }, mac := WifiMacType.StaWifiMac },
      ?_, rfl, rfl, rfl, ?_, ?_, ?_, rfl⟩
    · simp [List.getElem?_range hi1]
    · exact staInterface_getElem alloc nStations.toNat i hi1
    · simp [Create, List.getElem?_range hi1]
    · simp only [GetAddress, staInterface_getElem alloc nStations.toNat i hi1]
      rfl
  · simp [hn]
  · intro i hi
    have hi1 : i < nStations.toNat := by omega
    refine ⟨sinkApp i, ?_, rfl, rfl, ?_, rfl⟩
    · simp [List.getElem?_range hi1]
    · simp [Create, List.getElem?_range hi1, sinkApp]
  · intro app happ
    simp only [List.mem_map, List.mem_range] at happ
    obtain ⟨i, hi, rfl⟩ := happ
    refine ⟨sinkApp i, List.mem_map.mpr ⟨i, List.mem_range.mpr hi, rfl⟩,
      { node := { id := 1 + i }, mac := WifiMacType.StaWifiMac }, ?_, rfl, rfl⟩
    exact List.getElem?_mem (staInterface_getElem alloc nStations.toNat i hi)

/-- C6, on the default run of three stations with addresses from 10.0.0.1. -/
theorem C6_transmitters_and_sinks_witness :
    (1 : Int) ≤ 3 ∧ (3 : Int) < 2 ^ 31 ∧
    ∃ sc, mainScenario baseAlloc 3 = some sc
      ∧ sc.apNodes.length = 1
      ∧ (sc.staNodes.length : Int) = 3
      ∧ (sc.serverApps.length : Int) = 3
      ∧ (sc.sinkApps.length : Int) = 3 := by
  obtain ⟨sc, hsc, hap, hsta, _, _, hserver, _, hsink, _, _⟩ :=
    C6_transmitters_and_sinks baseAlloc 3 (by norm_num) (by norm_num)
  exact ⟨by norm_num, by norm_num, sc, hsc, hap, hsta, hserver, hsink⟩

/-! ## Mobility -/

/-- A point at `(d cos a, d sin a, 0)` lies at distance `|d|` from the origin. -/
theorem distance_on_circle (d a : ℝ) :
    Real.sqrt ((d * Real.cos a - 0) ^ 2 + (d * Real.sin a - 0) ^ 2 + ((0 : ℝ) - 0) ^ 2) = |d| := by
  have h : (d * Real.cos a - 0) ^ 2 + (d * Real.sin a - 0) ^ 2 + ((0 : ℝ) - 0) ^ 2 = d ^ 2 := by
    have hcs := Real.cos_sq_add_sin_sq a
    calc (d * Real.cos a - 0) ^ 2 + (d * Real.sin a - 0) ^ 2 + ((0 : ℝ) - 0) ^ 2
        = d ^ 2 * (Real.cos a ^ 2 + Real.sin a ^ 2) := by ring
      _ = d ^ 2 := by rw [hcs, mul_one]
  rw [h, Real.sqrt_sq_eq_abs]

/-- C7. The position allocator receives `nStations + 1` positions, the first the
origin, given to the access point; and for every `nStations ≥ 1`, every real
`nodeDistance` and every `i < nStations`, the position given to station `i` is
`(nodeDistance cos a, nodeDistance sin a, 0)` with
`a = (i / nStations) * (3.14159 * 2)`, at Euclidean distance `|nodeDistance|`
from the position of the access point (over the reals). -/
theorem C7_stations_on_circle (nStations : Int) (nodeDistance : ℝ) (i : Nat)
    (h1 : 1 ≤ nStations) (hi : (i : Int) < nStations) :
    ((positionAlloc Real.cos Real.sin nodeDistance nStations).length : Int) = nStations + 1
    ∧ (positionAlloc Real.cos Real.sin nodeDistance nStations)[0]?
        = some { x := 0, y := 0, z := 0 }
    ∧ ∃ p, (positionAlloc Real.cos Real.sin nodeDistance nStations)[i + 1]? = some p
        ∧ p.x = nodeDistance * Real.cos (((i : ℝ) / (nStations : ℝ)) * (3.14159 * 2))
        ∧ p.y = nodeDistance * Real.sin (((i : ℝ) / (nStations : ℝ)) * (3.14159 * 2))
        ∧ p.z = 0
        ∧ Real.sqrt ((p.x - 0) ^ 2 + (p.y - 0) ^ 2 + (p.z - 0) ^ 2) = |nodeDistance| := by
  have hn : (nStations.toNat : Int) = nStations := Int.toNat_of_nonneg (by omega)
  have hi1 : i < nStations.toNat := by omega
  have hc : (c : ℝ) = 3.14159 * 2 := by
    unfold c
    norm_num
  refine ⟨?_, ?_,
    { x := nodeDistance * Real.cos (angle nStations i),
      y := nodeDistance * Real.sin (angle nStations i), z := 0 }, ?_, ?_, ?_, ?_, ?_⟩
  · simp [positionAlloc, hn]
  · simp [positionAlloc]
  · simp only [positionAlloc, List.getElem?_cons_succ, List.getElem?_map,
      List.getElem?_range hi1, Option.map_some']
  · simp only [angle, hc]
  · simp only [angle, hc]
  · simp only
  · exact distance_on_circle nodeDistance _

/-- C7, on the default run: three stations at 34 m, the second station. -/
theorem C7_stations_on_circle_witness :
    (1 : Int) ≤ 3 ∧ ((1 : Nat) : Int) < 3 ∧
    ∃ p : Vector3D ℝ, (positionAlloc Real.cos Real.sin 34 3)[1 + 1]? = some p
      ∧ Real.sqrt ((p.x - 0) ^ 2 + (p.y - 0) ^ 2 + (p.z - 0) ^ 2) = |(34 : ℝ)| := by
  obtain ⟨_, _, p, hp, _, _, _, hdist⟩ :=
    C7_stations_on_circle 3 34 1 (by norm_num) (by norm_num)
  exact ⟨by norm_num, by norm_num, p, hp, hdist⟩

end Project
